import Mathlib

/-!
Verification of the data-provider contract and its GraphQL adapter.

The repository exposes a generic resource-operation contract (`getOne`,
`getList`, `getMany`, mutations, `getApiUrl`) and a GraphQL adapter that
translates declarative field/filter/sort/pagination descriptors into a
query document, executes it through an injected transport, and normalizes
the raw response envelope back into the contract's result shape.

The React context glue (`defaultDataProvider`, `DataContextProvider`) is
embedded from `packages/core/src/contexts/data/index.tsx`.  The GraphQL
adapter itself (`packages/graphql/src`) is not part of the sampled source
(only its test file is), so its operations are modelled from the
specification, as marked on each definition.
-/

namespace Refine

/-- JSON-like values as they travel through the adapter: the variables map,
the raw response `data` tree and the normalized payload are all plain JSON.
Mirrors the untyped `any`-shaped values of the TypeScript source. -/
inductive JValue where
  | null
  | str (s : String)
  | num (n : Int)
  | bool (b : Bool)
  | arr (elems : List JValue)
  | obj (fields : List (String × JValue))

/-- First value bound to `key` in a JSON object's field list (JavaScript
property lookup on an object literal). -/
def jLookup (fields : List (String × JValue)) (key : String) : Option JValue :=
  match fields with
  | [] => none
  | (k, v) :: rest => if k = key then some v else jLookup rest key

/-! ## Field Selection

Modelled from the spec: a Field Selection is an ordered sequence of entries,
each either a scalar field name (leaf) or a relation name mapped to a nested
Field Selection, e.g. `["id", "title", {category: ["id"]}]` in the test file
`packages/graphql/test/getOne/index.spec.ts`. -/

/-- One entry of a Field Selection: a scalar leaf or a relation with a
nested selection. -/
inductive SelEntry where
  | scalar (name : String)
  | relation (name : String) (nested : List SelEntry)

/-- Tokens of the emitted document fragment: a field/relation name, an
opening brace or a closing brace. -/
inductive Tok where
  | name (s : String)
  | lbrace
  | rbrace
deriving DecidableEq

/-- The characters a token is rendered as. -/
def tokChars : Tok → List Char
  | .name s => s.data
  | .lbrace => ['\x7b']
  | .rbrace => ['\x7d']

/-- The string a token is rendered as. -/
def tokStr (t : Tok) : String := ⟨tokChars t⟩

mutual

/-- Modelled from the spec: token stream of one selection entry — a scalar
leaf emits its name; a relation entry emits `name \x7b <nested> \x7d`. -/
def selEntryToks : SelEntry → List Tok
  | .scalar n => [.name n]
  | .relation n sub => .name n :: .lbrace :: (selToks sub ++ [.rbrace])

/-- Modelled from the spec: token stream of a selection, depth-first, in
input order. -/
def selToks : List SelEntry → List Tok
  | [] => []
  | e :: es => selEntryToks e ++ selToks es

end

/-- Render a token stream with single spaces between consecutive tokens
(continuation of `renderToks`). -/
def renderRest : List Tok → String
  | [] => ""
  | t :: ts => " " ++ tokStr t ++ renderRest ts

/-- Render a token stream with single spaces between consecutive tokens. -/
def renderToks : List Tok → String
  | [] => ""
  | t :: ts => tokStr t ++ renderRest ts

/-- Modelled from the spec (the adapter source `packages/graphql/src` is not
in the sample): `buildFieldSelection` recurses depth-first over the Field
Selection; scalar leaves emit their name, relation entries emit the relation
name followed by the braced recursive selection, in input order. -/
def buildFieldSelection (sel : List SelEntry) : String :=
  renderToks (selToks sel)

/-- A valid GraphQL field identifier character (letters, digits, `_`). -/
def isIdentChar (c : Char) : Bool :=
  c.isAlphanum || c = '_'

/-- A valid field/relation name: non-empty and made of identifier
characters only. -/
def validName (n : String) : Bool :=
  !n.data.isEmpty && n.data.all isIdentChar

mutual

/-- A valid selection entry: names are identifiers and every nested
selection is non-empty (GraphQL forbids empty selection sets; the spec makes
an empty nested selection a caller error). -/
def validSelEntry : SelEntry → Bool
  | .scalar n => validName n
  | .relation n sub => validName n && !sub.isEmpty && validSelList sub

/-- All entries of a selection are valid. -/
def validSelList : List SelEntry → Bool
  | [] => true
  | e :: es => validSelEntry e && validSelList es

end

/-- Split a character stream into space-separated words; `w` is the current
word accumulated in reverse. -/
def splitWordsAux : List Char → List Char → List (List Char)
  | [], w => if w.isEmpty then [] else [w.reverse]
  | c :: cs, w =>
    if c = ' ' then
      if w.isEmpty then splitWordsAux cs [] else w.reverse :: splitWordsAux cs []
    else splitWordsAux cs (c :: w)

/-- Classify one word of a rendered fragment back into a token. -/
def classifyWord (w : List Char) : Tok :=
  if w = ['\x7b'] then .lbrace
  else if w = ['\x7d'] then .rbrace
  else .name ⟨w⟩

/-- Lex a rendered document fragment back into its token stream. -/
def lexFragment (s : String) : List Tok :=
  (splitWordsAux s.data []).map classifyWord

/-- Stack-based parser of a token stream back into a selection tree: `acc`
holds the entries of the current selection in reverse, `st` the suspended
enclosing selections (relation name, entries so far). -/
def parseLoop : List Tok → List SelEntry → List (String × List SelEntry) → Option (List SelEntry)
  | [], acc, [] => some acc.reverse
  | [], _, _ :: _ => none
  | .name n :: rest, acc, st => parseLoop rest (.scalar n :: acc) st
  | .lbrace :: rest, .scalar n :: acc, st => parseLoop rest [] ((n, acc) :: st)
  | .lbrace :: _, [], _ => none
  | .lbrace :: _, .relation _ _ :: _, _ => none
  | .rbrace :: rest, acc, (n, acc0) :: st => parseLoop rest (.relation n acc.reverse :: acc0) st
  | .rbrace :: _, _, [] => none

/-- Re-parse a rendered document fragment into a selection tree. -/
def parseFragment (s : String) : Option (List SelEntry) :=
  parseLoop (lexFragment s) [] []

/-- A well-formed fragment token: braces are always well formed, a name
token must carry a valid identifier. -/
def validTok : Tok → Bool
  | .name n => validName n
  | .lbrace => true
  | .rbrace => true

/-! ## Filter Predicates and argument synthesis

Modelled from the spec: a Filter Predicate is a leaf `(field, operator,
value)` triple or a composite `AND`/`OR`/`NOT`; `buildOperationArguments`
serializes the filter into the backend's `where` argument object,
translating the connectives into the dialect's logical-grouping syntax. -/

/-- Scalar filter values (strings, numbers, booleans, null). -/
inductive Scalar where
  | s (v : String)
  | n (v : Int)
  | b (v : Bool)
  | null
deriving DecidableEq

/-- A filter comparison value: a scalar, or a list of scalars for the
membership operators. -/
inductive FilterValue where
  | scalar (v : Scalar)
  | list (vs : List Scalar)
deriving DecidableEq

/-- The fixed operator set of leaf predicates.  `in` is a Lean keyword, so
the membership operator is spelled `mem` here (the source spells it `in`). -/
inductive FilterOp where
  | eq | ne | lt | lte | gt | gte | mem | nmem | contains | null
deriving DecidableEq

/-- A Filter Predicate: leaf triple or logical composite.  Invariant (caller
side): composite operand lists are non-empty; `NOT` takes exactly one. -/
inductive Filter where
  | cond (fieldName : String) (op : FilterOp) (value : FilterValue)
  | and (operands : List Filter)
  | or (operands : List Filter)
  | not (operand : Filter)

/-- The dialect's name for a leaf operator, as used as a key of the
synthesized `where` object. -/
def opKeyName : FilterOp → String
  | .eq => "eq"
  | .ne => "ne"
  | .lt => "lt"
  | .lte => "lte"
  | .gt => "gt"
  | .gte => "gte"
  | .mem => "in"
  | .nmem => "nin"
  | .contains => "contains"
  | .null => "null"

/-- The synthesized `where` argument object: one entry per leaf keyed by
field and operator name, with the dialect's logical-grouping wrappers for
composites. -/
inductive WhereArg where
  | entry (fieldName : String) (opName : String) (value : FilterValue)
  | andGroup (ws : List WhereArg)
  | orGroup (ws : List WhereArg)
  | notGroup (w : WhereArg)

mutual

/-- Modelled from the spec: serialize a Filter Predicate into the `where`
argument object, translating `AND`/`OR`/`NOT` into the dialect's
logical-grouping syntax and leaves into field/operator-keyed entries. -/
def buildWhere : Filter → WhereArg
  | .cond f op v => .entry f (opKeyName op) v
  | .and fs => .andGroup (buildWhereList fs)
  | .or fs => .orGroup (buildWhereList fs)
  | .not f => .notGroup (buildWhere f)

/-- Serialize each operand of a composite filter. -/
def buildWhereList : List Filter → List WhereArg
  | [] => []
  | f :: fs => buildWhere f :: buildWhereList fs

end

/-- Substring test on character lists (used by the `contains` operator). -/
def charsContain (needle hay : List Char) : Bool :=
  match hay with
  | [] => needle.isEmpty
  | _ :: t => needle.isPrefixOf hay || charsContain needle t

/-- Which records a leaf `where` entry selects: the record's field value is
compared to the filter value under the named operator.  An unknown operator
name selects nothing. -/
def evalEntry (record : String → Option Scalar) (fieldName opName : String)
    (v : FilterValue) : Bool :=
  let fv := record fieldName
  match opName, v with
  | "eq", .scalar s => decide (fv = some s)
  | "ne", .scalar s => decide (fv ≠ some s)
  | "lt", .scalar (.n b) => match fv with | some (.n a) => decide (a < b) | _ => false
  | "lte", .scalar (.n b) => match fv with | some (.n a) => decide (a ≤ b) | _ => false
  | "gt", .scalar (.n b) => match fv with | some (.n a) => decide (b < a) | _ => false
  | "gte", .scalar (.n b) => match fv with | some (.n a) => decide (b ≤ a) | _ => false
  | "in", .list vs => match fv with | some s => vs.contains s | none => false
  | "nin", .list vs => match fv with | some s => !vs.contains s | none => true
  | "contains", .scalar (.s sub) =>
      match fv with | some (.s str) => charsContain sub.data str.data | _ => false
  | "null", _ => decide (fv = none) || decide (fv = some .null)
  | _, _ => false

mutual

/-- Which records a synthesized `where` argument selects: `AND` groups
require every member, `OR` groups some member, `NOT` negates. -/
def evalWhere (record : String → Option Scalar) : WhereArg → Bool
  | .entry f op v => evalEntry record f op v
  | .andGroup ws => evalWhereAll record ws
  | .orGroup ws => evalWhereAny record ws
  | .notGroup w => !evalWhere record w

/-- Every member of a group selects the record. -/
def evalWhereAll (record : String → Option Scalar) : List WhereArg → Bool
  | [] => true
  | w :: ws => evalWhere record w && evalWhereAll record ws

/-- Some member of a group selects the record. -/
def evalWhereAny (record : String → Option Scalar) : List WhereArg → Bool
  | [] => false
  | w :: ws => evalWhere record w || evalWhereAny record ws

end

/-- An optional `where` argument selects everything when absent. -/
def evalWhereOpt (record : String → Option Scalar) : Option WhereArg → Bool
  | none => true
  | some w => evalWhere record w

/-- One sort key: field plus direction, in tie-break order. -/
inductive SortDir where
  | asc | desc
deriving DecidableEq

/-- A sort specification entry. -/
structure SortSpec where
  fieldName : String
  direction : SortDir

/-- Pagination: a 1-indexed page with a positive page size, or off. -/
inductive Pagination where
  | paginated (current : Nat) (pageSize : Nat)
  | off

/-- The synthesized operation arguments: each component is present exactly
when the caller supplied it (absent components are omitted, not serialized
as null/empty). -/
structure OperationArgs where
  whereArg : Option WhereArg
  sortArg : Option (List SortSpec)
  paginationArg : Option Pagination

/-- Modelled from the spec: `buildOperationArguments` serializes each
present component into the backend's argument shape (a `where` object for
filters, a `sort` list, a `pagination` object) and omits absent ones. -/
def buildOperationArguments (filter : Option Filter) (sorters : Option (List SortSpec))
    (pagination : Option Pagination) : OperationArgs :=
  { whereArg := filter.map buildWhere
    sortArg := sorters
    paginationArg := pagination }

/-! ## Response envelope and Normalizer

Modelled from the spec: the raw envelope is
`\x7bdata?: \x7b<operationKey>: payload\x7d, errors?: [...]\x7d`; a present
non-empty error list fails with `GraphQLResponseError`; a missing operation
key fails with `MalformedResponseError`; a `null` payload of a singular
operation is a successful not-found. -/

/-- One entry of a GraphQL error list (`message`; `path`/`extensions` are
optional in the wire format and not needed by the Normalizer). -/
structure GError where
  message : String
deriving DecidableEq

/-- The raw GraphQL response envelope. -/
structure ResponseEnvelope where
  data : Option JValue
  errors : Option (List GError)

/-- The adapter's normalized error taxonomy: transport failure, a backend
error list, a response that violates the envelope contract, and an invalid
caller-supplied selection. -/
inductive GQLError where
  | transportError (cause : String)
  | graphQLResponseError (errors : List GError)
  | malformedResponseError (operationKey : String)
  | invalidSelectionError

/-- Modelled from the spec: Normalizer for singular operations.  A present
non-empty `errors` list fails with `GraphQLResponseError` carrying the full
list (all-or-nothing, `data` is never partially returned); otherwise the
payload is extracted at `data[operationKey]`, a missing key failing with
`MalformedResponseError`; a `null` payload is a valid successful result. -/
def normalizeSingular (operationKey : String) (env : ResponseEnvelope) :
    Except GQLError JValue :=
  match env.errors with
  | some (e :: es) => .error (.graphQLResponseError (e :: es))
  | _ =>
    match env.data with
    | some (.obj fields) =>
      match jLookup fields operationKey with
      | some payload => .ok payload
      | none => .error (.malformedResponseError operationKey)
    | _ => .error (.malformedResponseError operationKey)

/-- Modelled from the spec: Normalizer for list operations.  After the same
error-list check, the payload at `data[operationKey]` is expected to be
`\x7bnodes: [...], totalCount?\x7d`; a missing `totalCount` falls back to the
length of `nodes`. -/
def normalizeList (operationKey : String) (env : ResponseEnvelope) :
    Except GQLError (List JValue × Nat) :=
  match env.errors with
  | some (e :: es) => .error (.graphQLResponseError (e :: es))
  | _ =>
    match env.data with
    | some (.obj fields) =>
      match jLookup fields operationKey with
      | some (.obj payloadFields) =>
        match jLookup payloadFields "nodes" with
        | some (.arr nodes) =>
          match jLookup payloadFields "totalCount" with
          | some (.num total) => .ok (nodes, total.toNat)
          | _ => .ok (nodes, nodes.length)
        | _ => .error (.malformedResponseError operationKey)
      | _ => .error (.malformedResponseError operationKey)
    | _ => .error (.malformedResponseError operationKey)

/-! ## GraphQL Translator -/

/-- The `meta` bag fields the adapter recognizes: a Field Selection and a
pre-built query document override. -/
structure MetaBag where
  gqlQuery : Option String
  fields : Option (List SelEntry)

/-- Modelled from the spec: three-tier override resolution.  (a) a
caller-supplied full document is used verbatim, with no field-selection or
argument synthesis; (b) a caller-supplied field selection makes the
Translator derive the document around `buildFieldSelection`; (c) with
neither, a minimal default selection of `id` only is used. -/
def resolveDocument (operationName : String) (argsFragment : String)
    (meta : MetaBag) : String :=
  match meta.gqlQuery with
  | some q => q
  | none =>
    let selection :=
      match meta.fields with
      | some fs => buildFieldSelection fs
      | none => "id"
    "query \x7b " ++ operationName ++ argsFragment ++ " \x7b " ++ selection ++ " \x7d \x7d"

/-- Modelled from the spec and the test fixture: the operation key of a
singular read is the singular form of the resource name (`posts` →
`post`). -/
def singularOf (resource : String) : String :=
  match resource.data.getLast? with
  | some 's' => ⟨resource.data.dropLast⟩
  | _ => resource

/-! ## Resource operations of the GraphQL adapter

The Transport Adapter is an injected function from a document and a
variables map to a raw envelope (or a transport failure), per the spec's
collaborator contract `execute(document, variables)`. -/

/-- The injected Transport Adapter. -/
def Transport : Type :=
  String → JValue → Except String ResponseEnvelope

/-- Normalized single-entity result. -/
structure OneResult where
  data : JValue

/-- Normalized batch result. -/
structure ManyResult where
  data : List JValue

/-- Request of `getOne`. -/
structure GetOneParams where
  resource : String
  id : String
  meta : MetaBag

/-- Request of `getMany`. -/
structure GetManyParams where
  resource : String
  ids : List String
  meta : MetaBag

/-- Modelled from the spec: `getOne` resolves the document through the
three-tier override order, executes one transport round trip with the id as
a variable, and normalizes the payload found under the singular operation
key; transport failure is wrapped as `TransportError`. -/
def getOne (execute : Transport) (p : GetOneParams) : Except GQLError OneResult :=
  let operationKey := singularOf p.resource
  let doc := resolveDocument operationKey " (id: $id)" p.meta
  let vars := JValue.obj [("id", .str p.id)]
  match execute doc vars with
  | .error cause => .error (.transportError cause)
  | .ok env =>
    match normalizeSingular operationKey env with
    | .error e => .error e
    | .ok payload => .ok ⟨payload⟩

/-- Modelled from the spec: `getMany` short-circuits an empty id list to
`\x7bdata: []\x7d` with no transport call; otherwise it issues exactly one
round trip covering the whole batch.  The second component counts the
Transport Adapter invocations the call performed. -/
def getMany (execute : Transport) (p : GetManyParams) :
    (Except GQLError ManyResult) × Nat :=
  if p.ids.isEmpty then (.ok ⟨[]⟩, 0)
  else
    let doc := resolveDocument p.resource " (ids: $ids)" p.meta
    let vars := JValue.obj [("ids", .arr (p.ids.map .str))]
    match execute doc vars with
    | .error cause => (.error (.transportError cause), 1)
    | .ok env =>
      match normalizeList p.resource env with
      | .error e => (.error e, 1)
      | .ok (nodes, _) => (.ok ⟨nodes⟩, 1)

/-! ## Core data context (`packages/core/src/contexts/data/index.tsx`)

The provider bodies below are embedded from the source file.  The
`IDataContext` interface itself is imported there from `../../interfaces`
(not in the sample), so its operation signatures are modelled from the
spec's Resource Operation Contract; a settled promise is an `Except` value
(`.ok` = resolved, `.error` = rejected). -/

namespace Core

/-- Normalized collection result of the contract: data page plus total. -/
structure ListResult where
  data : List JValue
  total : Nat

/-- Arguments of `getList` per the contract signature
`getList(resource, filters?, sorters?, pagination?, meta?)`. -/
structure GetListParams where
  resource : String
  filters : Option (List Filter)
  sorters : Option (List SortSpec)
  pagination : Option Pagination
  meta : Option MetaBag

/-- Arguments of a singular read/delete: `(resource, id, meta?)`. -/
structure OneParams where
  resource : String
  id : String
  meta : Option MetaBag

/-- Arguments of a batch read/delete: `(resource, ids, meta?)`. -/
structure ManyParams where
  resource : String
  ids : List String
  meta : Option MetaBag

/-- Arguments of a singular write: resource plus the payload (the source
calls the payload `variables`; `variables` is reserved in Lean, so the
field is `input`, the name the payload is bound to on the wire). -/
structure WriteParams where
  resource : String
  id : Option String
  input : JValue
  meta : Option MetaBag

/-- Arguments of a batch write: resource plus the payloads. -/
structure WriteManyParams where
  resource : String
  ids : Option (List String)
  input : List JValue
  meta : Option MetaBag

/-- The ten operations of the Resource Operation Contract
(`IDataContext`). -/
structure IDataContext where
  create : WriteParams → Except String OneResult
  createMany : WriteManyParams → Except String ManyResult
  deleteOne : OneParams → Except String OneResult
  deleteMany : ManyParams → Except String ManyResult
  getList : GetListParams → Except String ListResult
  getMany : ManyParams → Except String ManyResult
  getOne : OneParams → Except String OneResult
  update : WriteParams → Except String OneResult
  updateMany : WriteManyParams → Except String ManyResult
  getApiUrl : Unit → String

/-- From the source: the default contract object used as the context's
default value; every operation resolves immediately with a fixed value. -/
def defaultDataProvider : Unit → IDataContext := fun _ =>
  { create := fun _ => .ok ⟨.obj [("id", .num 1)]⟩
    createMany := fun _ => .ok ⟨[]⟩
    deleteOne := fun _ => .ok ⟨.obj [("id", .num 1)]⟩
    deleteMany := fun _ => .ok ⟨[]⟩
    getList := fun _ => .ok ⟨[], 0⟩
    getMany := fun _ => .ok ⟨[]⟩
    getOne := fun _ => .ok ⟨.obj [("id", .num 1)]⟩
    update := fun _ => .ok ⟨.obj [("id", .num 1)]⟩
    updateMany := fun _ => .ok ⟨[]⟩
    getApiUrl := fun _ => "" }

/-- From the source: the default value installed by
`React.createContext(defaultDataProvider())`. -/
def dataContextDefault : IDataContext :=
  defaultDataProvider ()

/-- From the source: the value object `DataContextProvider` exposes to
descendant consumers, rebuilt field by field from its props in the order of
the source's value literal. -/
def dataContextProviderValue (props : IDataContext) : IDataContext :=
  { getList := props.getList
    getOne := props.getOne
    getMany := props.getMany
    update := props.update
    updateMany := props.updateMany
    create := props.create
    createMany := props.createMany
    deleteOne := props.deleteOne
    deleteMany := props.deleteMany
    getApiUrl := props.getApiUrl }

end Core

/-! ## Concrete fixtures (from `packages/graphql/test/getOne/index.spec.ts`
and the spec's worked examples) -/

/-- The field selection of the `getOne` test:
`["id", "title", "content", \x7bcategory: ["id"]\x7d]`. -/
def postFields : List SelEntry :=
  [.scalar "id", .scalar "title", .scalar "content",
   .relation "category" [.scalar "id"]]

/-- The record returned by the mock backend of the `getOne` test. -/
def postPayload : JValue :=
  .obj [("id", .str "45"), ("title", .str "foo"), ("content", .str "bar"),
        ("category", .obj [("id", .str "2")])]

/-- The mock backend of the `getOne` test: every request is answered with
`\x7bdata: \x7bpost: <postPayload>\x7d\x7d` and no errors. -/
def postBackend : Transport := fun _ _ =>
  .ok ⟨some (.obj [("post", postPayload)]), none⟩

/-- A backend whose `posts` query matches no record: it answers with a
successful envelope whose `post` payload is `null`. -/
def noMatchBackend : Transport := fun _ _ =>
  .ok ⟨some (.obj [("post", JValue.null)]), none⟩

/-- A small valid selection used as a concrete round-trip input. -/
def sampleSelection : List SelEntry :=
  [.scalar "id", .relation "category" [.scalar "id"]]

/-! ## Theorems -/

/-- Unfolding helper: serialization of a composite `AND` filter. -/
theorem buildWhere_and (fs : List Filter) :
    buildWhere (.and fs) = .andGroup (buildWhereList fs) := by
  rw [buildWhere]

/-- Unfolding helper: serialization of a cons operand list. -/
theorem buildWhereList_cons (f : Filter) (fs : List Filter) :
    buildWhereList (f :: fs) = buildWhere f :: buildWhereList fs := by
  rw [buildWhereList]

/-- Unfolding helper: serialization of an empty operand list. -/
theorem buildWhereList_nil : buildWhereList [] = [] := by
  rw [buildWhereList]

/-- Unfolding helper: semantics of an `AND` group. -/
theorem evalWhere_andGroup (record : String → Option Scalar)
    (ws : List WhereArg) :
    evalWhere record (.andGroup ws) = evalWhereAll record ws := by
  rw [evalWhere]

/-- Unfolding helper: semantics of a non-empty group. -/
theorem evalWhereAll_cons (record : String → Option Scalar) (w : WhereArg)
    (ws : List WhereArg) :
    evalWhereAll record (w :: ws) = (evalWhere record w && evalWhereAll record ws) := by
  rw [evalWhereAll]

/-- Unfolding helper: semantics of an empty group. -/
theorem evalWhereAll_nil (record : String → Option Scalar) :
    evalWhereAll record [] = true := by
  rw [evalWhereAll]

/-- Helper: a successful envelope whose payload under the operation key is
`null` normalizes to a successful `null`. -/
theorem normalizeSingular_null_aux (opKey : String) (env : ResponseEnvelope)
    (fields : List (String × JValue))
    (herr : env.errors = none ∨ env.errors = some [])
    (hdata : env.data = some (.obj fields))
    (hkey : jLookup fields opKey = some .null) :
    normalizeSingular opKey env = .ok .null := by
  obtain ⟨d, errs⟩ := env
  simp only at hdata herr
  subst hdata
  rcases herr with h | h <;> subst h <;> simp [normalizeSingular, hkey]

/-- Claim C1: the call `getOne` for resource `posts`, id `45` and the field
selection `["id", "title", "content", \x7bcategory: ["id"]\x7d]`, run against
the mock backend answering
`\x7bdata: \x7bpost: \x7bid, title, content, category\x7d\x7d\x7d`, returns
the payload extracted from under the operation key, unchanged. -/
theorem getOne_posts45_returns_payload :
    getOne postBackend ⟨"posts", "45", ⟨none, some postFields⟩⟩ =
      .ok ⟨postPayload⟩ := rfl

/-- Claim C2: when the caller supplies a full pre-built `gqlQuery` document,
the document the Translator resolves is that document, byte for byte, for
every fields selection, operation name and argument fragment — the override
path performs no field-selection or argument synthesis. -/
theorem resolveDocument_gqlQuery_verbatim (q : String)
    (fs : Option (List SelEntry)) (operationName argsFragment : String) :
    resolveDocument operationName argsFragment ⟨some q, fs⟩ = q := rfl

/-- Claim C3: whenever the error list of the raw envelope is present and
non-empty, the Normalizer — on its singular path and on its list path —
fails with `GraphQLResponseError` carrying the full error list, regardless
of the `data` value; it never returns a successful result. -/
theorem normalizer_errors_always_fail (opKey : String)
    (env : ResponseEnvelope) (es : List GError)
    (hpres : env.errors = some es) (hne : es ≠ []) :
    normalizeSingular opKey env = .error (.graphQLResponseError es) ∧
    normalizeList opKey env = .error (.graphQLResponseError es) := by
  obtain ⟨d, errs⟩ := env
  simp only at hpres
  subst hpres
  match es, hne with
  | e :: es', _ => exact ⟨by simp [normalizeSingular], by simp [normalizeList]⟩

/-- Witness of claim C3 at a concrete envelope carrying both a `boom` error
and a `data` value. -/
theorem normalizer_errors_always_fail_witness :
    (⟨some (.obj [("post", postPayload)]), some [⟨"boom"⟩]⟩ :
        ResponseEnvelope).errors = some [⟨"boom"⟩] ∧
    ([⟨"boom"⟩] : List GError) ≠ [] ∧
    (normalizeSingular "post"
        ⟨some (.obj [("post", postPayload)]), some [⟨"boom"⟩]⟩ =
      .error (.graphQLResponseError [⟨"boom"⟩]) ∧
    normalizeList "post"
        ⟨some (.obj [("post", postPayload)]), some [⟨"boom"⟩]⟩ =
      .error (.graphQLResponseError [⟨"boom"⟩])) :=
  ⟨rfl, by decide,
    normalizer_errors_always_fail "post" _ [⟨"boom"⟩] rfl (by decide)⟩

/-- Claim C5: a successful backend response of a singular operation whose
payload is `null` is surfaced as a successful result with `null` data; the
Normalizer never promotes not-found to an error. -/
theorem normalizeSingular_null_payload_success (opKey : String)
    (env : ResponseEnvelope) (fields : List (String × JValue))
    (herr : env.errors = none ∨ env.errors = some [])
    (hdata : env.data = some (.obj fields))
    (hkey : jLookup fields opKey = some .null) :
    normalizeSingular opKey env = .ok .null :=
  normalizeSingular_null_aux opKey env fields herr hdata hkey

/-- Witness of claim C5 at the concrete envelope
`\x7bdata: \x7bpost: null\x7d\x7d`. -/
theorem normalizeSingular_null_payload_success_witness :
    ((⟨some (.obj [("post", .null)]), none⟩ : ResponseEnvelope).errors = none ∨
      (⟨some (.obj [("post", .null)]), none⟩ : ResponseEnvelope).errors = some []) ∧
    (⟨some (.obj [("post", .null)]), none⟩ : ResponseEnvelope).data =
      some (.obj [("post", .null)]) ∧
    jLookup [("post", .null)] "post" = some .null ∧
    normalizeSingular "post" ⟨some (.obj [("post", .null)]), none⟩ = .ok .null :=
  ⟨Or.inl rfl, rfl, rfl,
    normalizeSingular_null_payload_success "post" _ [("post", .null)]
      (Or.inl rfl) rfl rfl⟩

/-- Claim C6: `getMany` with an empty id list resolves immediately to
`\x7bdata: []\x7d` and performs zero Transport Adapter invocations, for
every backend, resource and meta bag. -/
theorem getMany_empty_ids_short_circuits (execute : Transport)
    (resource : String) (meta : MetaBag) :
    getMany execute ⟨resource, [], meta⟩ = (.ok ⟨[]⟩, 0) := rfl

/-- Claim C4, counterexample: against a backend that matches no record
(successful envelope with `post: null`), `getOne` returns a successful
result with `null` data — it does not fail, so it does not fail with
`NotFoundError` (the error taxonomy has no such error). -/
theorem getOne_noMatch_is_success_counterexample :
    getOne noMatchBackend ⟨"posts", "45", ⟨none, none⟩⟩ = .ok ⟨.null⟩ := rfl

/-- Claim C4 as amended: whenever the backend answers every request with a
successful envelope whose payload under the singular operation key is
`null` (a no-match response), `getOne` resolves successfully with `null`
data instead of failing. -/
theorem getOne_noMatch_resolves_null (execute : Transport) (p : GetOneParams)
    (env : ResponseEnvelope) (fields : List (String × JValue))
    (hexec : ∀ d v, execute d v = .ok env)
    (herr : env.errors = none)
    (hdata : env.data = some (.obj fields))
    (hkey : jLookup fields (singularOf p.resource) = some .null) :
    getOne execute p = .ok ⟨.null⟩ := by
  unfold getOne
  dsimp only
  rw [hexec]
  dsimp only
  rw [normalizeSingular_null_aux (singularOf p.resource) env fields
    (Or.inl herr) hdata hkey]

/-- Witness of amended claim C4 at the concrete no-match backend. -/
theorem getOne_noMatch_resolves_null_witness :
    (∀ d v, noMatchBackend d v = .ok ⟨some (.obj [("post", .null)]), none⟩) ∧
    (⟨some (.obj [("post", .null)]), none⟩ : ResponseEnvelope).errors = none ∧
    jLookup [("post", .null)]
      (singularOf (GetOneParams.mk "posts" "45" ⟨none, none⟩).resource) =
        some .null ∧
    getOne noMatchBackend ⟨"posts", "45", ⟨none, none⟩⟩ = .ok ⟨.null⟩ :=
  ⟨fun _ _ => rfl, rfl, rfl,
    getOne_noMatch_resolves_null noMatchBackend ⟨"posts", "45", ⟨none, none⟩⟩
      ⟨some (.obj [("post", .null)]), none⟩ [("post", .null)]
      (fun _ _ => rfl) rfl rfl rfl⟩

/-- Claim C8: for all filter predicates `A` and `B`, the `where` arguments
`buildOperationArguments` synthesizes for `AND[A,B]` and `AND[B,A]` select
exactly the same records (logical equivalence at the argument level). -/
theorem buildOperationArguments_and_comm (A B : Filter)
    (record : String → Option Scalar) :
    evalWhereOpt record
        (buildOperationArguments (some (.and [A, B])) none none).whereArg =
      evalWhereOpt record
        (buildOperationArguments (some (.and [B, A])) none none).whereArg := by
  show evalWhere record (buildWhere (.and [A, B])) =
    evalWhere record (buildWhere (.and [B, A]))
  simp only [buildWhere_and, buildWhereList_cons, buildWhereList_nil,
    evalWhere_andGroup, evalWhereAll_cons, evalWhereAll_nil]
  cases evalWhere record (buildWhere A) <;>
    cases evalWhere record (buildWhere B) <;> simp

/-- Claim C9: the value `DataContextProvider` exposes to descendant
consumers is exactly the contract object it received — every one of the ten
operations is the identical function that was passed in, with no
transformation. -/
theorem dataContextProviderValue_is_identity (props : Core.IDataContext) :
    Core.dataContextProviderValue props = props := rfl

/-- Claim C10: the default contract object is total: for all arguments,
`getOne`, `create`, `update` and `deleteOne` resolve to
`\x7bdata: \x7bid: 1\x7d\x7d`, `getList` to `\x7bdata: [], total: 0\x7d`,
the batch operations to `\x7bdata: []\x7d`, and `getApiUrl` returns the
empty string — no operation can reject. -/
theorem defaultDataProvider_never_rejects (u : Unit)
    (pc : Core.WriteParams) (pcm : Core.WriteManyParams)
    (pd : Core.OneParams) (pdm : Core.ManyParams)
    (pl : Core.GetListParams) (pm : Core.ManyParams)
    (po : Core.OneParams) (pu : Core.WriteParams)
    (pum : Core.WriteManyParams) :
    (Core.defaultDataProvider u).getOne po = .ok ⟨.obj [("id", .num 1)]⟩ ∧
    (Core.defaultDataProvider u).create pc = .ok ⟨.obj [("id", .num 1)]⟩ ∧
    (Core.defaultDataProvider u).update pu = .ok ⟨.obj [("id", .num 1)]⟩ ∧
    (Core.defaultDataProvider u).deleteOne pd = .ok ⟨.obj [("id", .num 1)]⟩ ∧
    (Core.defaultDataProvider u).getList pl = .ok ⟨[], 0⟩ ∧
    (Core.defaultDataProvider u).getMany pm = .ok ⟨[]⟩ ∧
    (Core.defaultDataProvider u).createMany pcm = .ok ⟨[]⟩ ∧
    (Core.defaultDataProvider u).updateMany pum = .ok ⟨[]⟩ ∧
    (Core.defaultDataProvider u).deleteMany pdm = .ok ⟨[]⟩ ∧
    (Core.defaultDataProvider u).getApiUrl () = "" :=
  ⟨rfl, rfl, rfl, rfl, rfl, rfl, rfl, rfl, rfl, rfl⟩

/-- Helper: a valid token renders to at least one character. -/
theorem tokChars_ne_nil (t : Tok) (h : validTok t = true) : tokChars t ≠ [] := by
  match t with
  | .lbrace => simp [tokChars]
  | .rbrace => simp [tokChars]
  | .name n =>
    simp only [validTok] at h
    unfold validName at h
    rw [Bool.and_eq_true] at h
    obtain ⟨h1, _⟩ := h
    simpa [tokChars] using h1

/-- Helper: no character of a valid token's rendering is a space. -/
theorem tokChars_no_space (t : Tok) (h : validTok t = true) :
    ∀ c ∈ tokChars t, c ≠ ' ' := by
  match t with
  | .lbrace => simp [tokChars]
  | .rbrace => simp [tokChars]
  | .name n =>
    simp only [validTok] at h
    unfold validName at h
    rw [Bool.and_eq_true] at h
    obtain ⟨_, h2⟩ := h
    intro c hc heq
    have hid : isIdentChar c = true := List.all_eq_true.mp h2 c hc
    rw [heq] at hid
    exact absurd hid (by decide)

/-- Helper: lexing inverts rendering on a valid token. -/
theorem classifyWord_tokChars (t : Tok) (h : validTok t = true) :
    classifyWord (tokChars t) = t := by
  match t with
  | .lbrace => rfl
  | .rbrace => rfl
  | .name n =>
    simp only [validTok] at h
    unfold validName at h
    rw [Bool.and_eq_true] at h
    obtain ⟨_, h2⟩ := h
    show classifyWord n.data = .name n
    unfold classifyWord
    rw [if_neg, if_neg]
    · intro heq
      rw [heq] at h2
      exact absurd h2 (by decide)
    · intro heq
      rw [heq] at h2
      exact absurd h2 (by decide)

/-- Helper: the lexer carries a space-free word whole into the accumulated
current word. -/
theorem splitWordsAux_word (w : List Char) (hw : ∀ c ∈ w, c ≠ ' ') :
    ∀ cs acc, splitWordsAux (w ++ cs) acc = splitWordsAux cs (w.reverse ++ acc) := by
  induction w with
  | nil => intro cs acc; rfl
  | cons c w' ih =>
    intro cs acc
    have hc : c ≠ ' ' := hw c (List.mem_cons_self c w')
    rw [List.cons_append, splitWordsAux, if_neg hc,
      ih (fun d hd => hw d (List.mem_cons_of_mem c hd)) cs (c :: acc)]
    simp

/-- Helper: lexing the space-prefixed tail of a rendered token stream
closes the current word and recovers the remaining tokens' characters. -/
theorem splitWordsAux_renderRest (ts : List Tok) :
    ∀ acc, acc ≠ [] → (∀ t ∈ ts, validTok t = true) →
      splitWordsAux (renderRest ts).data acc = acc.reverse :: ts.map tokChars := by
  induction ts with
  | nil =>
    intro acc hacc _
    match acc, hacc with
    | a :: as, _ => simp [renderRest, splitWordsAux]
  | cons t ts ih =>
    intro acc hacc hval
    have hdata : (renderRest (t :: ts)).data =
        ' ' :: (tokChars t ++ (renderRest ts).data) := by
      show (" " ++ tokStr t ++ renderRest ts).data = _
      rw [String.data_append, String.data_append]
      rfl
    rw [hdata, splitWordsAux, if_pos rfl]
    match acc, hacc with
    | a :: as, _ =>
      simp only [List.isEmpty_cons, Bool.false_eq_true, if_false]
      rw [splitWordsAux_word (tokChars t)
        (tokChars_no_space t (hval t (List.mem_cons_self t ts))) _ []]
      rw [ih ((tokChars t).reverse ++ [])
        (by simp [tokChars_ne_nil t (hval t (List.mem_cons_self t ts))])
        (fun u hu => hval u (List.mem_cons_of_mem t hu))]
      simp

/-- Helper: lexing a rendered valid token stream recovers each token's
characters. -/
theorem splitWordsAux_renderToks (ts : List Tok)
    (hval : ∀ t ∈ ts, validTok t = true) :
    splitWordsAux (renderToks ts).data [] = ts.map tokChars := by
  match ts with
  | [] => rfl
  | t :: ts' =>
    have hdata : (renderToks (t :: ts')).data =
        tokChars t ++ (renderRest ts').data := by
      show (tokStr t ++ renderRest ts').data = _
      rw [String.data_append]
      rfl
    rw [hdata, splitWordsAux_word (tokChars t)
      (tokChars_no_space t (hval t (List.mem_cons_self t ts'))) _ []]
    rw [splitWordsAux_renderRest ts' ((tokChars t).reverse ++ [])
      (by simp [tokChars_ne_nil t (hval t (List.mem_cons_self t ts'))])
      (fun u hu => hval u (List.mem_cons_of_mem t hu))]
    simp

/-- Helper: lexing inverts rendering on a stream of valid tokens. -/
theorem lexFragment_renderToks (ts : List Tok)
    (hval : ∀ t ∈ ts, validTok t = true) :
    lexFragment (renderToks ts) = ts := by
  unfold lexFragment
  rw [splitWordsAux_renderToks ts hval, List.map_map]
  exact List.map_congr_left (fun t ht => classifyWord_tokChars t (hval t ht))
    |>.trans (List.map_id ts)

mutual

/-- Helper: a valid selection entry emits only valid tokens. -/
theorem selEntryToks_valid (e : SelEntry) (h : validSelEntry e = true) :
    ∀ t ∈ selEntryToks e, validTok t = true := by
  match e with
  | .scalar n =>
    rw [validSelEntry] at h
    rw [selEntryToks]
    intro t ht
    rw [List.mem_singleton] at ht
    subst ht
    exact h
  | .relation n sub =>
    rw [validSelEntry, Bool.and_eq_true, Bool.and_eq_true] at h
    obtain ⟨⟨hn, _⟩, hsub⟩ := h
    rw [selEntryToks]
    intro t ht
    rw [List.mem_cons, List.mem_cons, List.mem_append, List.mem_singleton] at ht
    rcases ht with h1 | h1 | h1 | h1
    · subst h1; exact hn
    · subst h1; rfl
    · exact selToks_valid sub hsub t h1
    · subst h1; rfl

/-- Helper: a valid selection emits only valid tokens. -/
theorem selToks_valid (l : List SelEntry) (h : validSelList l = true) :
    ∀ t ∈ selToks l, validTok t = true := by
  match l with
  | [] =>
    rw [selToks]
    intro t ht
    exact absurd ht (List.not_mem_nil t)
  | e :: es =>
    rw [validSelList, Bool.and_eq_true] at h
    rw [selToks]
    intro t ht
    rw [List.mem_append] at ht
    rcases ht with h1 | h1
    · exact selEntryToks_valid e h.1 t h1
    · exact selToks_valid es h.2 t h1

end

mutual

/-- Helper: the parser consumes the token stream of one entry by pushing
exactly that entry onto the current selection. -/
theorem parseLoop_entry (e : SelEntry) (rest : List Tok) (acc : List SelEntry)
    (st : List (String × List SelEntry)) :
    parseLoop (selEntryToks e ++ rest) acc st = parseLoop rest (e :: acc) st := by
  match e with
  | .scalar n => simp [selEntryToks, parseLoop]
  | .relation n sub =>
    simp only [selEntryToks, List.cons_append, List.append_assoc,
      List.singleton_append]
    rw [parseLoop, parseLoop, parseLoop_list sub, parseLoop]
    simp

/-- Helper: the parser consumes the token stream of a selection by pushing
its entries, in reverse, onto the current selection. -/
theorem parseLoop_list (l : List SelEntry) (rest : List Tok) (acc : List SelEntry)
    (st : List (String × List SelEntry)) :
    parseLoop (selToks l ++ rest) acc st = parseLoop rest (l.reverse ++ acc) st := by
  match l with
  | [] => simp [selToks]
  | e :: es =>
    simp only [selToks, List.append_assoc]
    rw [parseLoop_entry e, parseLoop_list es]
    simp

end

/-- Claim C7: for every valid Field Selection (identifier names, non-empty
at each nesting level), the document fragment `buildFieldSelection` produces
mirrors the selection's structure exactly: scalar leaves emit their name,
relation entries the relation name followed by the braced recursive
selection, in input order, and re-parsing the fragment's relation-brace
nesting recovers the original selection tree. -/
theorem buildFieldSelection_roundtrip (sel : List SelEntry)
    (hvalid : validSelList sel = true) (hne : sel ≠ []) :
    parseFragment (buildFieldSelection sel) = some sel := by
  unfold parseFragment buildFieldSelection
  rw [lexFragment_renderToks (selToks sel) (selToks_valid sel hvalid)]
  have h := parseLoop_list sel [] [] []
  rw [List.append_nil] at h
  rw [h, List.append_nil, parseLoop, List.reverse_reverse]

/-- Witness of claim C7 at the concrete selection
`["id", \x7bcategory: ["id"]\x7d]`. -/
theorem buildFieldSelection_roundtrip_witness :
    validSelList sampleSelection = true ∧ sampleSelection ≠ [] ∧
    parseFragment (buildFieldSelection sampleSelection) = some sampleSelection :=
  ⟨by decide, by simp [sampleSelection],
    buildFieldSelection_roundtrip sampleSelection (by decide)
      (by simp [sampleSelection])⟩

end Refine
